import Mathlib

/-!
Verification of the publish-queue safety gate, queue state machine and
overlay-timing logic of the social-automation repository.

The scheduler logic is embedded from `src/publishing/scheduler.py` and
`src/publishing/tiktok.py`.  The SQLite `publish_queue` table is modelled
as a `List QueueItem`; ISO-8601 UTC timestamps are modelled as integer
seconds (ISO UTC strings compare in the same order as the instants they
denote).  SQL `ORDER BY` clauses are modelled with insertion sort over the
corresponding key.  The overlay layout logic is embedded from
`src/media/text_overlay.py`, with durations as rationals (exact arithmetic
over the values the Python code manipulates).
-/

/-- Statuses a `publish_queue` row can carry
(`src/publishing/tiktok.py`, `STATUS_*`). -/
inductive QStatus
  | pending
  | approved
  | uploading
  | published
  | failed
deriving DecidableEq, Repr

/-- One row of the `publish_queue` table (`src/db.py` schema, as read by
`src/publishing/scheduler.py`). -/
structure QueueItem where
  id : Nat
  video_id : Nat
  platform : String
  scheduled_at : Int
  status : QStatus
  published_at : Option Int
  external_post_id : Option String
  error_message : Option String
  retry_count : Nat
  created_at : Int
  updated_at : Int
deriving DecidableEq, Repr

/-- `MAX_CONSECUTIVE_FAILURES` from `scheduler.py`. -/
def MAX_CONSECUTIVE_FAILURES : Nat := 3

/-- `HUMAN_APPROVAL_THRESHOLD` from `scheduler.py`. -/
def HUMAN_APPROVAL_THRESHOLD : Nat := 10

/-- Key order of `ORDER BY updated_at DESC`. -/
def updGE (a b : QueueItem) : Prop := b.updated_at ≤ a.updated_at

instance : DecidableRel updGE := fun a b =>
  inferInstanceAs (Decidable (b.updated_at ≤ a.updated_at))

instance : IsTotal QueueItem updGE :=
  ⟨fun a b => Int.le_total b.updated_at a.updated_at⟩

instance : IsTrans QueueItem updGE :=
  ⟨fun _ _ _ h h' => le_trans h' h⟩

/-- Key order of `ORDER BY scheduled_at ASC`. -/
def schedLE (a b : QueueItem) : Prop := a.scheduled_at ≤ b.scheduled_at

instance : DecidableRel schedLE := fun a b =>
  inferInstanceAs (Decidable (a.scheduled_at ≤ b.scheduled_at))

instance : IsTotal QueueItem schedLE :=
  ⟨fun a b => Int.le_total a.scheduled_at b.scheduled_at⟩

instance : IsTrans QueueItem schedLE :=
  ⟨fun _ _ _ h h' => le_trans h h'⟩

/-- Result of `SELECT status FROM publish_queue ORDER BY updated_at DESC
LIMIT 3` (`check_consecutive_failures`, scheduler.py lines 110-115). -/
def recentRows (q : List QueueItem) : List QueueItem :=
  (List.insertionSort updGE q).take MAX_CONSECUTIVE_FAILURES

/-- `check_consecutive_failures` (scheduler.py lines 108-118): true when the
consecutive-failure limit has NOT been hit. -/
def check_consecutive_failures (q : List QueueItem) : Bool :=
  let rows := recentRows q
  if rows.length < MAX_CONSECUTIVE_FAILURES then true
  else !(rows.all fun r => r.status == QStatus.failed)

/-- The non-NULL `published_at` values of rows with status `published`
(the rows inspected by `check_min_interval`, scheduler.py lines 92-95). -/
def publishedAts (q : List QueueItem) : List Int :=
  q.filterMap fun it =>
    if it.status = QStatus.published then it.published_at else none

/-- `SELECT published_at FROM publish_queue WHERE status = published
ORDER BY published_at DESC LIMIT 1`: the greatest non-NULL `published_at` of
a published row (SQLite sorts NULLs last under DESC, and the code returns
early when the selected value is NULL). -/
def lastPublishedAt (q : List QueueItem) : Option Int :=
  (publishedAts q).foldl (fun acc t =>
    match acc with
    | none => some t
    | some m => some (max m t)) none

/-- `check_min_interval` (scheduler.py lines 83-105).  `minHours` is the
configured `publishing.min_hours_between_posts` (default 4); `now` is the
current UTC instant in seconds; `timedelta(hours=minHours)` is
`minHours * 3600` seconds. -/
def check_min_interval (minHours : Nat) (now : Int) (q : List QueueItem) : Bool :=
  match lastPublishedAt q with
  | none => true
  | some pa => decide (pa + (minHours : Int) * 3600 ≤ now)

/-- `needs_human_approval` (scheduler.py lines 121-131). -/
def needs_human_approval (q : List QueueItem) : Bool :=
  decide ((q.filter fun it => it.status == QStatus.published).length
    < HUMAN_APPROVAL_THRESHOLD)

/-- `approve_item` (scheduler.py lines 134-142): a single conditional
`UPDATE ... WHERE id = ? AND status = pending`; returns the updated table
together with `rowcount > 0`. -/
def approve_item (now : Int) (q : List QueueItem) (qid : Nat) :
    List QueueItem × Bool :=
  (q.map fun it =>
      if it.id = qid ∧ it.status = QStatus.pending then
        { it with status := QStatus.approved, updated_at := now }
      else it,
   !(q.filter fun it => it.id == qid && it.status == QStatus.pending).isEmpty)

/-- The fixed breaker reason string built in `can_publish`
(scheduler.py lines 151-154). -/
def pausedMsg : String :=
  "Paused: 3 consecutive failures. Review errors before continuing."

/-- The interval reason string built in `can_publish`
(scheduler.py line 160). -/
def tooSoonMsg (minHours : Nat) : String :=
  s!"Too soon: must wait {minHours}h between posts."

/-- `can_publish` (scheduler.py lines 145-162). -/
def can_publish (minHours : Nat) (now : Int) (q : List QueueItem) :
    Bool × String :=
  if check_consecutive_failures q = false then (false, pausedMsg)
  else if check_min_interval minHours now q = false then
    (false, tooSoonMsg minHours)
  else (true, "OK")

/-- `pat` is an initial run of `cs`. -/
def leadsWith : List Char → List Char → Bool
  | [], _ => true
  | _ :: _, [] => false
  | a :: pat, b :: cs => a == b && leadsWith pat cs

/-- `pat` occurs as a contiguous run inside `cs`. -/
def hasRun (pat : List Char) : List Char → Bool
  | [] => leadsWith pat []
  | c :: cs => leadsWith pat (c :: cs) || hasRun pat cs

/-- `needle` occurs as a contiguous substring of `s`. -/
def containsText (needle s : String) : Bool :=
  hasRun needle.toList s.toList

/-- `get_due_items` (scheduler.py lines 63-75): approved rows whose
`scheduled_at` is at or before `now`, ordered by `scheduled_at` ascending. -/
def get_due_items (now : Int) (q : List QueueItem) : List QueueItem :=
  List.insertionSort schedLE
    (q.filter fun it =>
      it.status == QStatus.approved && decide (it.scheduled_at ≤ now))

/-- First row with the given `id` (row lookup by primary key). -/
def itemById (q : List QueueItem) (qid : Nat) : Option QueueItem :=
  q.find? fun it => it.id == qid

/-- Per-row effect of `update_queue_status` (tiktok.py lines 167-201):
the published branch sets `published_at`/`external_post_id` and clears
`error_message`; the failed branch sets `error_message` and increments
`retry_count`; every branch sets `status` and `updated_at`. -/
def applyStatusUpdate (now : Int) (st : QStatus) (epid : Option String)
    (emsg : Option String) (it : QueueItem) : QueueItem :=
  match st with
  | QStatus.published =>
      { it with status := QStatus.published, published_at := some now,
                external_post_id := epid, error_message := none,
                updated_at := now }
  | QStatus.failed =>
      { it with status := QStatus.failed, error_message := emsg,
                retry_count := it.retry_count + 1, updated_at := now }
  | st => { it with status := st, updated_at := now }

/-- `update_queue_status` (tiktok.py lines 167-201): an `UPDATE ... WHERE
id = ?` with no condition on the current status. -/
def update_queue_status (now : Int) (q : List QueueItem) (qid : Nat)
    (st : QStatus) (epid : Option String) (emsg : Option String) :
    List QueueItem :=
  q.map fun it => if it.id = qid then applyStatusUpdate now st epid emsg it else it

/-- One entry of the list returned by `process_queue`
(`{queue_id, status, ...}` result dicts). -/
structure PResult where
  queue_id : Option Nat
  status : String
  detail : String
deriving DecidableEq, Repr

/-- External collaborators of the processor: the configured
`publishing.min_hours_between_posts`, the `generated_videos` lookup
(whether the referenced video row exists), and the external publish call
(`publish_video`), which either returns a publish id or raises an error
message.  The caption lookups (prayers/verses/themes) have fallbacks in the
code and do not affect control flow or queue state, so they are omitted. -/
structure Env where
  minHours : Nat
  videoFound : Nat → Bool
  publishCall : Nat → Except String String

/-- Loop body of `process_queue` for one due item, after the per-item
interval re-check (scheduler.py lines 207-274).  Returns the updated table,
the appended result record, and the list of status writes performed
(each `update_queue_status` call, in order). -/
def processItem (env : Env) (now : Int) (dryRun : Bool) (q : List QueueItem)
    (item : QueueItem) : List QueueItem × PResult × List (Nat × QStatus) :=
  if env.videoFound item.video_id = false then
    (update_queue_status now q item.id QStatus.failed none
       (some "Video record not found."),
     ⟨some item.id, "failed", "Video not found."⟩,
     [(item.id, QStatus.failed)])
  else if dryRun then
    (q, ⟨some item.id, "dry_run", ""⟩, [])
  else
    let q1 := update_queue_status now q item.id QStatus.uploading none none
    match env.publishCall item.video_id with
    | Except.ok pid =>
        (update_queue_status now q1 item.id QStatus.published (some pid) none,
         ⟨some item.id, "published", pid⟩,
         [(item.id, QStatus.uploading), (item.id, QStatus.published)])
    | Except.error e =>
        (update_queue_status now q1 item.id QStatus.failed none
           (some (e.take 500)),
         ⟨some item.id, "failed", e.take 200⟩,
         [(item.id, QStatus.uploading), (item.id, QStatus.failed)])

/-- The `for item in due:` loop of `process_queue` (scheduler.py lines
197-274): re-check the minimum interval before each item and stop the batch
(`break`) with a single `skipped` record when it fails. -/
def processGo (env : Env) (now : Int) (dryRun : Bool) :
    List QueueItem → List QueueItem →
    List QueueItem × List PResult × List (Nat × QStatus)
  | q, [] => (q, [], [])
  | q, item :: rest =>
    if check_min_interval env.minHours now q = false then
      (q, [⟨some item.id, "skipped", "Min interval not met."⟩], [])
    else
      let step := processItem env now dryRun q item
      let next := processGo env now dryRun step.1 rest
      (next.1, step.2.1 :: next.2.1, step.2.2 ++ next.2.2)

/-- `process_queue` (scheduler.py lines 170-276).  Time is held fixed at
`now` for the invocation (the code reads the clock repeatedly within one
batch; the claims under verification do not depend on the sub-second drift
between those reads). -/
def process_queue (env : Env) (now : Int) (dryRun : Bool)
    (q : List QueueItem) :
    List QueueItem × List PResult × List (Nat × QStatus) :=
  let gate := can_publish env.minHours now q
  if gate.1 = false then (q, [⟨none, "blocked", gate.2⟩], [])
  else
    let due := get_due_items now q
    if due.isEmpty then (q, [⟨none, "empty", "No due items."⟩], [])
    else processGo env now dryRun q due

/-- Status of the result record mentioning `qid`, when one exists. -/
def resultFor (rs : List PResult) (qid : Nat) : Option String :=
  (rs.find? fun r => r.queue_id == some qid).map fun r => r.status

/-- `TIKTOK_BOTTOM_SAFE_ZONE` (text_overlay.py line 14): a fixed 384 px,
20% of the 1920 px reference height. -/
def TIKTOK_BOTTOM_SAFE_ZONE : Int := 384

/-- `safe_zone_y = height - TIKTOK_BOTTOM_SAFE_ZONE`
(text_overlay.py line 145): the bottom boundary for rendered content,
computed from the fixed constant whatever `height` is. -/
def safeZoneY (height : Int) : Int := height - TIKTOK_BOTTOM_SAFE_ZONE

/-- The `i`-th prayer chunk of `generate_overlay_frames`
(text_overlay.py lines 121-134): the word list is cut into `num_chunks = 4`
slices of `len(words) // 4` words, the last slice taking every remaining
word. -/
def prayerChunk (prayerWords : List String) (i : Nat) : List String :=
  let wordsPerChunk := prayerWords.length / 4
  if i = 4 - 1 then prayerWords.drop (i * wordsPerChunk)
  else (prayerWords.drop (i * wordsPerChunk)).take wordsPerChunk

/-- `chunk_duration` (text_overlay.py lines 136-139): uniform across the 4
chunks; the first 6 seconds are reserved for the verse and the last 4 for
the CTA. -/
def chunkDuration (durationSec : ℚ) : ℚ := (durationSec - 6 - 4) / 4

/-- One timed overlay frame as returned by `generate_overlay_frames`
(the `file_path`/`start_sec`/`end_sec`/`chunk_index` dict), plus the chunk
word list the frame renders. -/
structure OverlayFrame where
  chunk_index : Nat
  chunk_words : List String
  file_path : String
  start_sec : ℚ
  end_sec : ℚ
deriving DecidableEq, Repr

/-- Frame `i` of `generate_overlay_frames` (text_overlay.py lines 221-239):
frame 0 starts at 0; frame `i > 0` starts at `6 + i * chunk_duration`;
frame `i` ends at `6 + (i+1) * chunk_duration` except the last frame, whose
end is force-set to `duration_sec`. -/
def overlayFrameAt (durationSec : ℚ) (prayerWords : List String) (i : Nat) :
    OverlayFrame :=
  { chunk_index := i
    chunk_words := prayerChunk prayerWords i
    file_path := s!"media/overlays/overlay_{i}.png"
    start_sec := if i = 0 then 0 else 6 + (i : ℚ) * chunkDuration durationSec
    end_sec := if i = 4 - 1 then durationSec
               else 6 + ((i : ℚ) + 1) * chunkDuration durationSec }

/-- Timing and chunking of `generate_overlay_frames` (text_overlay.py lines
88-241): one frame per chunk, `num_chunks = 4`.  `prayerWords` is the
word list `prayer_text.split()` of line 122.  Image rendering (the PNG
content) is external I/O and is modelled separately by
`overlayTextDraws`. -/
def generate_overlay_frames (prayerWords : List String) (durationSec : ℚ) :
    List OverlayFrame :=
  (List.range 4).map (overlayFrameAt durationSec prayerWords)

/-- One `draw.text` call: the text drawn and the y anchor passed to Pillow
(the top of the rendered line; the two-pass shadow draw also touches
`y + shadow_offset`). -/
structure TextDraw where
  y : Int
  kind : String
deriving DecidableEq, Repr

/-- The y anchors of the text draws of one frame of
`generate_overlay_frames` (text_overlay.py lines 148-218), with
`margin = 60`, parameterized by the wrapped line counts the fonts produce:
brand at `margin + 40 = 100`, verse reference at `180`, verse lines from
`240` stepping 50, the prayer box after a 60 px gap (clamped so its bottom
stays at or above `safe_zone_y - 80`), prayer lines inside it stepping 55,
and CTA lines ending at `safe_zone_y`, stepping 45. -/
def overlayTextDraws (height : Int)
    (nVerseLines nPrayerLines nCtaLines : Nat) : List TextDraw :=
  let szY := safeZoneY height
  let verseLines := (List.range nVerseLines).map fun k =>
    (⟨240 + 50 * (k : Int), "verse"⟩ : TextDraw)
  let yAfterVerse : Int := 240 + 50 * (nVerseLines : Int) + 60
  let prayerHeight : Int := 55 * (nPrayerLines : Int) + 40
  let boxTop : Int :=
    if yAfterVerse + prayerHeight > szY - 80 then szY - 80 - prayerHeight
    else yAfterVerse
  let prayerLines := (List.range nPrayerLines).map fun k =>
    (⟨boxTop + 20 + 55 * (k : Int), "prayer"⟩ : TextDraw)
  let ctaLines := (List.range nCtaLines).map fun k =>
    (⟨szY - 45 * (nCtaLines : Int) + 45 * (k : Int), "cta"⟩ : TextDraw)
  ⟨100, "brand"⟩ :: ⟨180, "verse_ref"⟩ :: (verseLines ++ prayerLines ++ ctaLines)


lemma length_recentRows (q : List QueueItem) :
    (recentRows q).length = min MAX_CONSECUTIVE_FAILURES q.length := by
  simp [recentRows, List.length_take, List.length_insertionSort]

lemma publishedAts_eq_nil {q : List QueueItem}
    (h : ∀ r ∈ q, r.status = QStatus.failed) : publishedAts q = [] := by
  induction q with
  | nil => rfl
  | cons a l ih =>
      have ha := h a (List.mem_cons_self a l)
      simp only [publishedAts, List.filterMap_cons, ha]
      rw [if_neg (by simp [ha])]
      exact ih fun r hr => h r (List.mem_cons_of_mem a hr)

/-- Claim C1: whenever the queue has at least 3 rows and the 3 most recent
rows by `updated_at` all have status `failed`, `can_publish` returns
`(false, reason)` with a reason mentioning consecutive failures; with fewer
than 3 rows, or with one of the 3 most recent not `failed`, the breaker
check passes; in particular with only 2 rows, both failed, `can_publish`
returns `(true, "OK")`. -/
theorem c1_consecutive_failure_breaker
    (minHours : Nat) (now : Int) (q : List QueueItem) :
    (3 ≤ q.length →
      ((recentRows q).all fun r => r.status == QStatus.failed) = true →
      can_publish minHours now q = (false, pausedMsg)
        ∧ containsText "consecutive failures" pausedMsg = true)
    ∧ ((q.length < 3 ∨ ∃ r ∈ recentRows q, r.status ≠ QStatus.failed) →
      check_consecutive_failures q = true)
    ∧ (q.length = 2 → (∀ r ∈ q, r.status = QStatus.failed) →
      can_publish minHours now q = (true, "OK")) := by
  refine ⟨?_, ?_, ?_⟩
  · intro hlen hall
    have hrows : ¬ (recentRows q).length < MAX_CONSECUTIVE_FAILURES := by
      simp only [length_recentRows, MAX_CONSECUTIVE_FAILURES]
      omega
    have hbrk : check_consecutive_failures q = false := by
      simp only [check_consecutive_failures, if_neg hrows, hall,
        Bool.not_true]
    exact ⟨by simp [can_publish, hbrk], by decide⟩
  · intro h
    rcases h with hlen | ⟨r, hr, hrf⟩
    · have : (recentRows q).length < MAX_CONSECUTIVE_FAILURES := by
        simp only [length_recentRows, MAX_CONSECUTIVE_FAILURES]
        omega
      simp [check_consecutive_failures, this]
    · by_cases hlt : (recentRows q).length < MAX_CONSECUTIVE_FAILURES
      · simp [check_consecutive_failures, hlt]
      · have hall : ((recentRows q).all fun x => x.status == QStatus.failed)
            = false := by
          cases hb : (recentRows q).all fun x => x.status == QStatus.failed
          · rfl
          · exact absurd (by simpa using List.all_eq_true.mp hb r hr) hrf
        simp [check_consecutive_failures, if_neg hlt, hall]
  · intro hlen hall
    have hbrk : check_consecutive_failures q = true := by
      have : (recentRows q).length < MAX_CONSECUTIVE_FAILURES := by
        rw [length_recentRows, hlen]
        decide
      simp [check_consecutive_failures, this]
    have hint : check_min_interval minHours now q = true := by
      simp [check_min_interval, lastPublishedAt, publishedAts_eq_nil hall]
    simp [can_publish, hbrk, hint]

/-- A queue row with the given id, status, schedule, update time and
publish time (remaining columns at their defaults), for concrete
scenarios. -/
def sampleItem (i : Nat) (st : QStatus) (sched upd : Int) (pa : Option Int) :
    QueueItem :=
  { id := i, video_id := i, platform := "tiktok", scheduled_at := sched,
    status := st, published_at := pa, external_post_id := none,
    error_message := none, retry_count := 0, created_at := 0,
    updated_at := upd }

/-- Queue whose 3 most recent rows are failed while a published row sits
half an hour in the past: both gate conditions are violated at once. -/
def qBreakerAndInterval : List QueueItem :=
  [sampleItem 1 QStatus.published 0 5 (some 98200),
   sampleItem 2 QStatus.failed 0 10 none,
   sampleItem 3 QStatus.failed 0 20 none,
   sampleItem 4 QStatus.failed 0 30 none]

/-- Counterexample to claim C2 as stated: at `now = 100000` the most recent
publish (at 98200) is only 30 minutes old, so `now` is strictly inside the
4-hour window, yet `can_publish` reports the consecutive-failure reason,
not a reason mentioning "Too soon" — because the breaker is checked first. -/
theorem c2_counterexample :
    lastPublishedAt qBreakerAndInterval = some 98200
    ∧ (100000 : Int) < 98200 + (4 : Int) * 3600
    ∧ can_publish 4 100000 qBreakerAndInterval = (false, pausedMsg)
    ∧ containsText "Too soon" pausedMsg = false := by decide

/-- Claim C2 (amended: provided the consecutive-failure breaker passes):
the interval check passes when no published row exists; when the breaker
passes and `now` is strictly before the most recent `published_at` plus
`min_hours_between_posts`, `can_publish` returns the "Too soon" reason
carrying the configured hour count; at or after that cutoff the interval
check passes. -/
theorem c2_min_interval_gate
    (minHours : Nat) (now pa : Int) (q : List QueueItem) :
    (lastPublishedAt q = none → check_min_interval minHours now q = true)
    ∧ (check_consecutive_failures q = true →
        lastPublishedAt q = some pa →
        now < pa + (minHours : Int) * 3600 →
        can_publish minHours now q = (false, tooSoonMsg minHours))
    ∧ (lastPublishedAt q = some pa →
        pa + (minHours : Int) * 3600 ≤ now →
        check_min_interval minHours now q = true)
    ∧ containsText "Too soon" (tooSoonMsg 4) = true := by
  refine ⟨?_, ?_, ?_, by decide⟩
  · intro h
    simp [check_min_interval, h]
  · intro hbrk hpa hlt
    have hint : check_min_interval minHours now q = false := by
      simp [check_min_interval, hpa]
      omega
    simp [can_publish, hbrk, hint]
  · intro hpa hle
    simp [check_min_interval, hpa]
    omega

/-- Queue with a single published row, 30 minutes before `now = 100000`. -/
def qRecentPublish : List QueueItem :=
  [sampleItem 1 QStatus.published 0 5 (some 98200)]

/-- Witness for `c2_min_interval_gate` at a concrete queue: a publish 30
minutes ago under a 4-hour minimum blocks with the "Too soon" reason. -/
theorem c2_min_interval_gate_witness :
    can_publish 4 100000 qRecentPublish = (false, tooSoonMsg 4) :=
  (c2_min_interval_gate 4 100000 98200 qRecentPublish).2.1
    (by decide) (by decide) (by decide)

lemma itemById_map {g : QueueItem → QueueItem}
    (hg : ∀ x, (g x).id = x.id) (q : List QueueItem) (qid : Nat) :
    itemById (q.map g) qid = (itemById q qid).map g := by
  induction q with
  | nil => rfl
  | cons a l ih =>
      simp only [itemById, List.map_cons, List.find?]
      rw [hg a]
      cases hb : (a.id == qid)
      · simpa [itemById] using ih
      · rfl

lemma itemById_of_nodup {q : List QueueItem} {it : QueueItem}
    (hn : (q.map QueueItem.id).Nodup) (hmem : it ∈ q) :
    itemById q it.id = some it := by
  induction q with
  | nil => cases hmem
  | cons a l ih =>
      rcases List.mem_cons.mp hmem with rfl | hmem'
      · simp [itemById]
      · have hne : a.id ≠ it.id := by
          intro he
          have : a.id ∈ l.map QueueItem.id :=
            he ▸ List.mem_map_of_mem QueueItem.id hmem'
          exact (List.nodup_cons.mp (by simpa using hn)).1 this
        have hb : (a.id == it.id) = false := by
          simpa using hne
        have := ih (List.nodup_cons.mp (by simpa using hn)).2 hmem'
        simpa [itemById, List.find?, hb] using this

lemma id_inj_of_nodup {q : List QueueItem} {a b : QueueItem}
    (hn : (q.map QueueItem.id).Nodup) (ha : a ∈ q) (hb : b ∈ q)
    (hid : a.id = b.id) : a = b :=
  List.inj_on_of_nodup_map hn ha hb hid

lemma filter_isEmpty_iff (p : QueueItem → Bool) (q : List QueueItem) :
    ((q.filter p).isEmpty = false) ↔ ∃ x ∈ q, p x = true := by
  rw [List.isEmpty_eq_false_iff_exists_mem]
  constructor
  · rintro ⟨x, hx⟩
    exact ⟨x, (List.mem_filter.mp hx).1, (List.mem_filter.mp hx).2⟩
  · rintro ⟨x, hx, hp⟩
    exact ⟨x, List.mem_filter.mpr ⟨hx, hp⟩⟩

/-- Claim C6: `approve_item` returns true and moves the row to `approved`
exactly when the current status of the row is `pending`; on a non-pending row
(for instance an already-approved one) it returns false and leaves the
whole table unchanged.  (The embedding is a total function: no exception
is raised on the non-pending path.) -/
theorem c6_approve_iff_pending (now : Int) (q : List QueueItem)
    (it : QueueItem) (hn : (q.map QueueItem.id).Nodup) (hmem : it ∈ q) :
    ((approve_item now q it.id).2 = true ↔ it.status = QStatus.pending)
    ∧ (it.status = QStatus.pending →
        itemById (approve_item now q it.id).1 it.id =
          some { it with status := QStatus.approved, updated_at := now })
    ∧ (it.status ≠ QStatus.pending → (approve_item now q it.id).1 = q) := by
  refine ⟨?_, ?_, ?_⟩
  · simp only [approve_item, Bool.not_eq_true', Bool.not_eq_false]
    rw [filter_isEmpty_iff]
    constructor
    · rintro ⟨x, hx, hp⟩
      rw [Bool.and_eq_true, beq_iff_eq, beq_iff_eq] at hp
      exact id_inj_of_nodup hn hx hmem hp.1 ▸ hp.2
    · intro hp
      exact ⟨it, hmem, by simp [hp]⟩
  · intro hp
    have hg : ∀ x : QueueItem,
        ((if x.id = it.id ∧ x.status = QStatus.pending then
          { x with status := QStatus.approved, updated_at := now }
         else x) : QueueItem).id = x.id := by
      intro x
      by_cases hc : x.id = it.id ∧ x.status = QStatus.pending <;> simp [hc]
    simp only [approve_item]
    rw [itemById_map hg q it.id, itemById_of_nodup hn hmem]
    simp [hp]
  · intro hp
    have : ∀ x ∈ q,
        (if x.id = it.id ∧ x.status = QStatus.pending then
          { x with status := QStatus.approved, updated_at := now }
         else x) = x := by
      intro x hx
      have : ¬ (x.id = it.id ∧ x.status = QStatus.pending) := by
        rintro ⟨h1, h2⟩
        exact hp (id_inj_of_nodup hn hx hmem h1 ▸ h2)
      simp [this]
    simp only [approve_item]
    calc (q.map fun x =>
            if x.id = it.id ∧ x.status = QStatus.pending then
              { x with status := QStatus.approved, updated_at := now }
            else x)
        = q.map id := List.map_congr_left this
      _ = q := List.map_id q

/-- Witness for `c6_approve_iff_pending`: approving a pending row succeeds
and a second approval of the now-approved row fails and changes nothing. -/
theorem c6_approve_iff_pending_witness :
    ((approve_item 50 [sampleItem 7 QStatus.pending 0 0 none] 7).2 = true)
    ∧ ((approve_item 60 [sampleItem 7 QStatus.approved 0 50 none] 7).2
        = false)
    ∧ (approve_item 60 [sampleItem 7 QStatus.approved 0 50 none] 7).1
        = [sampleItem 7 QStatus.approved 0 50 none] := by
  refine ⟨?_, ?_, ?_⟩
  · exact (c6_approve_iff_pending 50 [sampleItem 7 QStatus.pending 0 0 none]
      (sampleItem 7 QStatus.pending 0 0 none) (by decide)
      (by decide)).1.mpr (by decide)
  · have h := (c6_approve_iff_pending 60
      [sampleItem 7 QStatus.approved 0 50 none]
      (sampleItem 7 QStatus.approved 0 50 none) (by decide) (by decide)).1
    cases hb : (approve_item 60 [sampleItem 7 QStatus.approved 0 50 none]
        7).2
    · rfl
    · exact absurd (h.mp hb) (by decide)
  · exact (c6_approve_iff_pending 60
      [sampleItem 7 QStatus.approved 0 50 none]
      (sampleItem 7 QStatus.approved 0 50 none) (by decide)
      (by decide)).2.2 (by decide)

/-- Counterexample to claim C8 as stated: `update_queue_status` carries no
condition on the current status.  Writing `published` to a row whose
current status is `pending` (not the source state of the transition,
`uploading`) still takes effect. -/
theorem c8_counterexample :
    (sampleItem 1 QStatus.pending 0 0 none).status ≠ QStatus.uploading
    ∧ itemById
        (update_queue_status 500 [sampleItem 1 QStatus.pending 0 0 none] 1
          QStatus.published (some "post-9") none) 1 =
      some { sampleItem 1 QStatus.pending 0 0 none with
               status := QStatus.published, published_at := some 500,
               external_post_id := some "post-9", error_message := none,
               updated_at := 500 } := by decide

/-- Claim C8 (amended): only the `pending → approved` transition
(`approve_item`) is a conditional update keyed on the expected prior
status; the processor transitions performed through `update_queue_status`
(`approved → uploading`, `uploading → published`, `uploading → failed`)
apply to the row with the given id unconditionally, whatever its current
status. -/
theorem c8_transition_conditionality
    (now : Int) (q : List QueueItem) (qid : Nat) :
    ((approve_item now q qid).2 = true ↔
      ∃ x ∈ q, x.id = qid ∧ x.status = QStatus.pending)
    ∧ (∀ (st : QStatus) (epid emsg : Option String), ∀ x ∈ q, x.id = qid →
        applyStatusUpdate now st epid emsg x ∈
          update_queue_status now q qid st epid emsg) := by
  constructor
  · simp only [approve_item, Bool.not_eq_true', Bool.not_eq_false]
    rw [filter_isEmpty_iff]
    constructor
    · rintro ⟨x, hx, hp⟩
      rw [Bool.and_eq_true, beq_iff_eq, beq_iff_eq] at hp
      exact ⟨x, hx, hp⟩
    · rintro ⟨x, hx, h1, h2⟩
      exact ⟨x, hx, by simp [h1, h2]⟩
  · intro st epid emsg x hx hid
    have : applyStatusUpdate now st epid emsg x =
        (fun it => if it.id = qid then applyStatusUpdate now st epid emsg it
                   else it) x := by
      simp [hid]
    rw [update_queue_status, this]
    exact List.mem_map_of_mem _ hx

/-- Witness for `c8_transition_conditionality`: a pending row is approved
conditionally, and an unconditional `failed` write lands on a row that was
never `uploading`. -/
theorem c8_transition_conditionality_witness :
    ((approve_item 9 [sampleItem 2 QStatus.pending 0 0 none] 2).2 = true)
    ∧ applyStatusUpdate 9 QStatus.failed none (some "boom")
        (sampleItem 2 QStatus.approved 0 0 none) ∈
      update_queue_status 9 [sampleItem 2 QStatus.approved 0 0 none] 2
        QStatus.failed none (some "boom") := by
  constructor
  · exact (c8_transition_conditionality 9
      [sampleItem 2 QStatus.pending 0 0 none] 2).1.mpr
      ⟨sampleItem 2 QStatus.pending 0 0 none, by decide, by decide, by decide⟩
  · exact (c8_transition_conditionality 9
      [sampleItem 2 QStatus.approved 0 0 none] 2).2 QStatus.failed none
      (some "boom") (sampleItem 2 QStatus.approved 0 0 none)
      (by decide) (by decide)

lemma applyStatusUpdate_id (now : Int) (st : QStatus)
    (epid emsg : Option String) (it : QueueItem) :
    (applyStatusUpdate now st epid emsg it).id = it.id := by
  cases st <;> rfl

lemma itemById_update (now : Int) (q : List QueueItem) (qid : Nat)
    (st : QStatus) (epid emsg : Option String) (j : Nat) :
    itemById (update_queue_status now q qid st epid emsg) j =
      (itemById q j).map fun row =>
        if row.id = qid then applyStatusUpdate now st epid emsg row
        else row := by
  apply itemById_map
  intro x
  by_cases h : x.id = qid <;> simp [h, applyStatusUpdate_id]

lemma row_id_of_itemById {q : List QueueItem} {j : Nat} {row : QueueItem}
    (h : itemById q j = some row) : row.id = j := by
  have := List.find?_some h
  simpa using this

lemma itemById_update_ne (now : Int) (q : List QueueItem) (qid : Nat)
    (st : QStatus) (epid emsg : Option String) {j : Nat} (hne : j ≠ qid) :
    itemById (update_queue_status now q qid st epid emsg) j =
      itemById q j := by
  rw [itemById_update]
  cases h : itemById q j with
  | none => rfl
  | some row =>
      have : row.id = j := row_id_of_itemById h
      simp [this, hne]

/-- Claim C10: a transition to `failed` through `update_queue_status`
increments `retry_count` by exactly one on the targeted row, and the
"video not found" path of `process_queue` performs exactly one status
write — directly to `failed`, never passing through `uploading` — on the
(due, hence `approved`) item, likewise incrementing `retry_count`. -/
theorem c10_failed_transition_increments_retry
    (env : Env) (now : Int) (dryRun : Bool) (q : List QueueItem)
    (qid : Nat) (epid emsg : Option String) (row item : QueueItem) :
    (itemById q qid = some row →
      itemById (update_queue_status now q qid QStatus.failed epid emsg) qid
        = some { row with
                   status := QStatus.failed, error_message := emsg,
                   retry_count := row.retry_count + 1, updated_at := now })
    ∧ (env.videoFound item.video_id = false →
        itemById q item.id = some row →
        (processItem env now dryRun q item).2.2 = [(item.id, QStatus.failed)]
        ∧ (processItem env now dryRun q item).2.1.status = "failed"
        ∧ itemById (processItem env now dryRun q item).1 item.id =
            some { row with
                     status := QStatus.failed,
                     error_message := some "Video record not found.",
                     retry_count := row.retry_count + 1,
                     updated_at := now }) := by
  constructor
  · intro h
    rw [itemById_update, h]
    have : row.id = qid := row_id_of_itemById h
    simp [this, applyStatusUpdate]
  · intro hv h
    have hrow : row.id = item.id := row_id_of_itemById h
    refine ⟨by simp [processItem, hv], by simp [processItem, hv], ?_⟩
    simp only [processItem, hv, if_true]
    rw [itemById_update, h]
    simp [hrow, applyStatusUpdate]

/-- Witness for `c10_failed_transition_increments_retry`: a due approved
row whose video record is missing is written straight to `failed` with its
`retry_count` raised from 0 to 1. -/
theorem c10_failed_transition_increments_retry_witness :
    (processItem ⟨4, fun _ => false, fun _ => Except.ok "p"⟩ 777 false
        [sampleItem 3 QStatus.approved 0 0 none]
        (sampleItem 3 QStatus.approved 0 0 none)).2.2
      = [(3, QStatus.failed)]
    ∧ (processItem ⟨4, fun _ => false, fun _ => Except.ok "p"⟩ 777 false
        [sampleItem 3 QStatus.approved 0 0 none]
        (sampleItem 3 QStatus.approved 0 0 none)).2.1.status = "failed"
    ∧ itemById (processItem ⟨4, fun _ => false, fun _ => Except.ok "p"⟩ 777
        false [sampleItem 3 QStatus.approved 0 0 none]
        (sampleItem 3 QStatus.approved 0 0 none)).1 3 =
      some { sampleItem 3 QStatus.approved 0 0 none with
             status := QStatus.failed,
             error_message := some "Video record not found.",
             retry_count := 1, updated_at := 777 } :=
  (c10_failed_transition_increments_retry
      ⟨4, fun _ => false, fun _ => Except.ok "p"⟩ 777 false
      [sampleItem 3 QStatus.approved 0 0 none] 3 none none
      (sampleItem 3 QStatus.approved 0 0 none)
      (sampleItem 3 QStatus.approved 0 0 none)).2
    (by decide) (by decide)

lemma processItem_queue_id (env : Env) (now : Int) (d : Bool)
    (q : List QueueItem) (item : QueueItem) :
    (processItem env now d q item).2.1.queue_id = some item.id := by
  by_cases hv : env.videoFound item.video_id = false
  · simp [processItem, hv]
  · by_cases hd : d = true
    · simp [processItem, hv, hd]
    · cases hp : env.publishCall item.video_id <;>
        simp [processItem, hv, hd, hp]

lemma processItem_status_ne_skipped (env : Env) (now : Int) (d : Bool)
    (q : List QueueItem) (item : QueueItem) :
    (processItem env now d q item).2.1.status ≠ "skipped" := by
  by_cases hv : env.videoFound item.video_id = false
  · simp [processItem, hv]
  · by_cases hd : d = true
    · simp [processItem, hv, hd]
    · cases hp : env.publishCall item.video_id <;>
        simp [processItem, hv, hd, hp]

lemma processItem_frame (env : Env) (now : Int) (d : Bool)
    (q : List QueueItem) (item : QueueItem) {j : Nat}
    (hne : j ≠ item.id) :
    itemById (processItem env now d q item).1 j = itemById q j := by
  by_cases hv : env.videoFound item.video_id = false
  · simp [processItem, hv, itemById_update_ne _ _ _ _ _ _ hne]
  · by_cases hd : d = true
    · simp [processItem, hv, hd]
    · cases hp : env.publishCall item.video_id <;>
        simp [processItem, hv, hd, hp,
          itemById_update_ne _ _ _ _ _ _ hne]

lemma processGo_result_ids (env : Env) (now : Int) (d : Bool) :
    ∀ (rem q : List QueueItem), ∀ r ∈ (processGo env now d q rem).2.1,
      ∃ z ∈ rem, r.queue_id = some z.id := by
  intro rem
  induction rem with
  | nil =>
      intro q r hr
      simp [processGo] at hr
  | cons item rest ih =>
      intro q r hr
      by_cases hint : check_min_interval env.minHours now q = false
      · simp only [processGo, if_pos hint, List.mem_singleton] at hr
        exact ⟨item, List.mem_cons_self item rest, by rw [hr]⟩
      · simp only [processGo, if_neg hint, List.mem_cons] at hr
        rcases hr with hr | hr
        · exact ⟨item, List.mem_cons_self item rest,
            by rw [hr, processItem_queue_id]⟩
        · obtain ⟨z, hz, hid⟩ := ih _ r hr
          exact ⟨z, List.mem_cons_of_mem item hz, hid⟩

lemma processGo_frame (env : Env) (now : Int) (d : Bool) :
    ∀ (rem q : List QueueItem) (j : Nat),
      (∀ r ∈ (processGo env now d q rem).2.1, r.queue_id ≠ some j) →
      itemById (processGo env now d q rem).1 j = itemById q j := by
  intro rem
  induction rem with
  | nil =>
      intro q j _
      simp [processGo]
  | cons item rest ih =>
      intro q j hment
      by_cases hint : check_min_interval env.minHours now q = false
      · simp [processGo, if_pos hint]
      · simp only [processGo, if_neg hint] at hment ⊢
        have hne : j ≠ item.id := by
          intro he
          apply hment (processItem env now d q item).2.1
            (List.mem_cons_self _ _)
          rw [processItem_queue_id, he]
        have h1 := ih (processItem env now d q item).1 j
          (fun r hr => hment r (List.mem_cons_of_mem _ hr))
        rw [h1, processItem_frame env now d q item hne]

lemma processGo_skip (env : Env) (now : Int) (d : Bool) :
    ∀ (rem q : List QueueItem), (rem.map QueueItem.id).Nodup →
      ∀ x ∈ rem,
        resultFor (processGo env now d q rem).2.1 x.id = some "skipped" →
        ∀ y ∈ rem.dropWhile (fun z => z.id != x.id),
          itemById (processGo env now d q rem).1 y.id = itemById q y.id := by
  intro rem
  induction rem with
  | nil =>
      intro q _ x hx
      cases hx
  | cons item rest ih =>
      intro q hn x hx hres y hy
      rw [List.map_cons, List.nodup_cons] at hn
      obtain ⟨hid, hntail⟩ := hn
      by_cases hint : check_min_interval env.minHours now q = false
      · simp [processGo, if_pos hint]
      · rcases List.mem_cons.mp hx with rfl | hx'
        · exfalso
          have hhead : resultFor (processGo env now d q (x :: rest)).2.1 x.id
              = some (processItem env now d q x).2.1.status := by
            have hb : ((processItem env now d q x).2.1.queue_id
                == some x.id) = true := by
              rw [processItem_queue_id]
              simp
            simp only [processGo, if_neg hint, resultFor, List.find?_cons, hb]
            rfl
          rw [hhead] at hres
          exact processItem_status_ne_skipped env now d q x
            (Option.some_injective _ hres)
        · have hne : item.id ≠ x.id := by
            intro he
            exact hid (he ▸ List.mem_map_of_mem QueueItem.id hx')
          have hb : ((processItem env now d q item).2.1.queue_id
              == some x.id) = false := by
            rw [processItem_queue_id]
            simpa using hne
          have hres' : resultFor
              (processGo env now d (processItem env now d q item).1
                rest).2.1 x.id = some "skipped" := by
            rw [show resultFor (processGo env now d q (item :: rest)).2.1 x.id
                = resultFor (processGo env now d
                    (processItem env now d q item).1 rest).2.1 x.id from ?_]
              at hres
            · exact hres
            · simp only [processGo, if_neg hint, resultFor, List.find?_cons,
                hb]
          have hpred : (item.id != x.id) = true := by
            simpa using hne
          have hyrest : y ∈ rest.dropWhile (fun z => z.id != x.id) := by
            rw [List.dropWhile_cons, if_pos hpred] at hy
            exact hy
          have hymem : y ∈ rest :=
            (List.dropWhile_sublist (fun z : QueueItem => z.id != x.id)
              (l := rest)).subset hyrest
          have hyne : y.id ≠ item.id := by
            intro he
            exact hid (he ▸ List.mem_map_of_mem QueueItem.id hymem)
          have h1 := ih (processItem env now d q item).1 hntail x hx'
            hres' y hyrest
          have h2 : itemById (processGo env now d q (item :: rest)).1 y.id
              = itemById (processGo env now d
                  (processItem env now d q item).1 rest).1 y.id := by
            simp only [processGo, if_neg hint]
          rw [h2, h1, processItem_frame env now d q item hyne]

lemma mem_get_due_items {now : Int} {q : List QueueItem} {y : QueueItem}
    (hy : y ∈ get_due_items now q) :
    y ∈ q ∧ y.status = QStatus.approved ∧ y.scheduled_at ≤ now := by
  have hperm := List.perm_insertionSort schedLE
    (q.filter fun it =>
      it.status == QStatus.approved && decide (it.scheduled_at ≤ now))
  have hyf := hperm.mem_iff.mp hy
  have := List.mem_filter.mp hyf
  refine ⟨this.1, ?_, ?_⟩
  · have := this.2
    rw [Bool.and_eq_true] at this
    simpa using this.1
  · have := this.2
    rw [Bool.and_eq_true] at this
    simpa using this.2

lemma nodup_due_ids {now : Int} {q : List QueueItem}
    (hn : (q.map QueueItem.id).Nodup) :
    ((get_due_items now q).map QueueItem.id).Nodup := by
  have hsub : ((q.filter fun it =>
      it.status == QStatus.approved && decide (it.scheduled_at ≤ now)).map
        QueueItem.id).Sublist (q.map QueueItem.id) :=
    (List.filter_sublist q).map QueueItem.id
  have hfil := hn.sublist hsub
  have hperm := (List.perm_insertionSort schedLE
    (q.filter fun it =>
      it.status == QStatus.approved && decide (it.scheduled_at ≤ now))).map
        QueueItem.id
  exact hperm.symm.nodup hfil

lemma process_queue_eq (env : Env) (now : Int) (d : Bool)
    (q : List QueueItem) :
    process_queue env now d q =
      if (can_publish env.minHours now q).1 = false then
        (q, [⟨none, "blocked", (can_publish env.minHours now q).2⟩], [])
      else if (get_due_items now q).isEmpty = true then
        (q, [⟨none, "empty", "No due items."⟩], [])
      else processGo env now d q (get_due_items now q) := rfl

lemma resultFor_eq_none {rs : List PResult} {j : Nat}
    (h : resultFor rs j = none) : ∀ r ∈ rs, r.queue_id ≠ some j := by
  intro r hr he
  have hfind : (rs.find? fun r => r.queue_id == some j) = none := by
    cases hf : rs.find? fun r => r.queue_id == some j
    · rfl
    · rw [resultFor, hf] at h
      cases h
  have := List.find?_eq_none.mp hfind r hr
  rw [he] at this
  simp at this

/-- Claim C7: within one `process_queue` invocation, due items are handled
in ascending `scheduled_at` order; rows never mentioned by a result record
are returned unchanged; and when the per-item interval re-check fails for a
due item (the `skipped` record), that item and every later due item keep
their rows — still `approved` — exactly as they were before the
invocation. -/
theorem c7_batch_stops_at_interval_block
    (env : Env) (now : Int) (q : List QueueItem)
    (hn : (q.map QueueItem.id).Nodup) :
    List.Pairwise schedLE (get_due_items now q)
    ∧ (∀ it ∈ q,
        resultFor (process_queue env now false q).2.1 it.id = none →
        itemById (process_queue env now false q).1 it.id = some it)
    ∧ (∀ x ∈ get_due_items now q,
        resultFor (process_queue env now false q).2.1 x.id = some "skipped" →
        ∀ y ∈ (get_due_items now q).dropWhile (fun z => z.id != x.id),
          itemById (process_queue env now false q).1 y.id = some y
          ∧ y.status = QStatus.approved) := by
  refine ⟨List.sorted_insertionSort schedLE _, ?_, ?_⟩
  · intro it hmem hnone
    rw [process_queue_eq] at hnone ⊢
    by_cases hgate : (can_publish env.minHours now q).1 = false
    · rw [if_pos hgate]
      exact itemById_of_nodup hn hmem
    · rw [if_neg hgate] at hnone ⊢
      by_cases hdue : (get_due_items now q).isEmpty = true
      · rw [if_pos hdue]
        exact itemById_of_nodup hn hmem
      · rw [if_neg hdue] at hnone ⊢
        have hment := resultFor_eq_none hnone
        rw [processGo_frame env now false (get_due_items now q) q it.id
          hment]
        exact itemById_of_nodup hn hmem
  · intro x hx hres y hy
    rw [process_queue_eq] at hres ⊢
    by_cases hgate : (can_publish env.minHours now q).1 = false
    · rw [if_pos hgate] at hres
      simp [resultFor] at hres
    · rw [if_neg hgate] at hres ⊢
      by_cases hdue : (get_due_items now q).isEmpty = true
      · rw [if_pos hdue] at hres
        simp [resultFor] at hres
      · rw [if_neg hdue] at hres ⊢
        have h1 := processGo_skip env now false (get_due_items now q) q
          (nodup_due_ids hn) x hx hres y hy
        have hydue : y ∈ get_due_items now q :=
          (List.dropWhile_sublist (fun z : QueueItem => z.id != x.id)
            (l := get_due_items now q)).subset hy
        obtain ⟨hyq, hyst, _⟩ := mem_get_due_items hydue
        exact ⟨h1.trans (itemById_of_nodup hn hyq), hyst⟩

/-- Collaborators for the batch-stop scenario: 4-hour minimum, every video
present, publish always succeeding. -/
def envBatch : Env :=
  { minHours := 4, videoFound := fun _ => true,
    publishCall := fun _ => Except.ok "post-1" }

/-- Two approved due items; once the first publishes, the interval cutoff
moves past `now` and the second must be skipped untouched. -/
def qBatch : List QueueItem :=
  [sampleItem 1 QStatus.approved 50 1 none,
   sampleItem 2 QStatus.approved 60 2 none]

/-- Witness for `c7_batch_stops_at_interval_block`: in the two-item batch
the second due item is reported `skipped` and its row survives the
invocation unchanged and still `approved`. -/
theorem c7_batch_stops_at_interval_block_witness :
    itemById (process_queue envBatch 100000 false qBatch).1
        (sampleItem 2 QStatus.approved 60 2 none).id
      = some (sampleItem 2 QStatus.approved 60 2 none)
    ∧ (sampleItem 2 QStatus.approved 60 2 none).status
      = QStatus.approved :=
  (c7_batch_stops_at_interval_block envBatch 100000 qBatch (by decide)).2.2
    (sampleItem 2 QStatus.approved 60 2 none) (by decide) (by decide)
    (sampleItem 2 QStatus.approved 60 2 none) (by decide)

/-- Three rows, all failed — the breaker scenario. -/
def qThreeFailed : List QueueItem :=
  [sampleItem 1 QStatus.failed 0 10 none,
   sampleItem 2 QStatus.failed 0 20 none,
   sampleItem 3 QStatus.failed 0 30 none]

/-- Two rows, both failed — below the breaker threshold. -/
def qTwoFailed : List QueueItem :=
  [sampleItem 1 QStatus.failed 0 10 none,
   sampleItem 2 QStatus.failed 0 20 none]

/-- Witness for `c1_consecutive_failure_breaker`: three failed rows trip
the breaker with the consecutive-failures reason; two failed rows leave
`can_publish` at `(true, "OK")`. -/
theorem c1_consecutive_failure_breaker_witness :
    (can_publish 4 100000 qThreeFailed = (false, pausedMsg)
      ∧ containsText "consecutive failures" pausedMsg = true)
    ∧ can_publish 4 100000 qTwoFailed = (true, "OK") :=
  ⟨(c1_consecutive_failure_breaker 4 100000 qThreeFailed).1
      (by decide) (by decide),
   (c1_consecutive_failure_breaker 4 100000 qTwoFailed).2.2
      (by decide) (by decide)⟩

/-- Claim C5: the frames of `generate_overlay_frames` partition
`[0, duration]` exactly: the first frame starts at 0, the last frame ends
at exactly the duration (explicitly pinned), consecutive frames are
contiguous, and the frame lengths sum to exactly the duration. -/
theorem c5_frames_partition_duration (prayerWords : List String) (d : ℚ) :
    ((generate_overlay_frames prayerWords d).head?.map
        (fun f => f.start_sec) = some 0)
    ∧ ((generate_overlay_frames prayerWords d).getLast?.map
        (fun f => f.end_sec) = some d)
    ∧ List.Chain' (fun a b => b.start_sec = a.end_sec)
        (generate_overlay_frames prayerWords d)
    ∧ ((generate_overlay_frames prayerWords d).map
        (fun f => f.end_sec - f.start_sec)).sum = d := by
  have hexp : generate_overlay_frames prayerWords d =
      [overlayFrameAt d prayerWords 0, overlayFrameAt d prayerWords 1,
       overlayFrameAt d prayerWords 2, overlayFrameAt d prayerWords 3] := rfl
  rw [hexp]
  refine ⟨rfl, ?_, ?_, ?_⟩
  · simp [overlayFrameAt]
  · refine List.chain'_cons.mpr ⟨?_, List.chain'_cons.mpr ⟨?_,
      List.chain'_cons.mpr ⟨?_, List.chain'_singleton _⟩⟩⟩
    · norm_num [overlayFrameAt]
    · norm_num [overlayFrameAt]
    · norm_num [overlayFrameAt]
  · simp [overlayFrameAt, chunkDuration]
    ring

/-- Counterexample evidence for claim C3 on the code: a 150-word prayer at
65 s yields exactly 4 frames — the fixed `num_chunks = 4` split — not the
`ceil(150/3) = 50` frames of the 3-word-group chunking the claim
describes. -/
theorem c3_code_yields_four_frames :
    (generate_overlay_frames (List.replicate 150 "word") 65).length = 4
    ∧ (150 + 3 - 1) / 3 = 50
    ∧ (4 : Nat) ≠ 50 := by
  refine ⟨rfl, rfl, by decide⟩

/-- Counterexample evidence for claim C4 on the code: with 150 words at
65 s, frame 0 carries 37 words and is allocated
`6 + (65 - 6 - 4)/4 = 79/4` seconds — the uniform per-chunk duration plus
the 6-second verse lead — whereas the claimed proportional allocation is
`65 * 37 / 150 = 481/30` seconds. -/
theorem c4_code_allots_uniform_durations :
    ((generate_overlay_frames (List.replicate 150 "word") 65).head?.map
        (fun f => f.end_sec - f.start_sec)) = some (79 / 4 : ℚ)
    ∧ ((generate_overlay_frames (List.replicate 150 "word") 65).head?.map
        (fun f => (f.chunk_words.length : ℚ))) = some 37
    ∧ (79 / 4 : ℚ) ≠ 65 * 37 / 150 := by
  refine ⟨?_, ?_, by norm_num⟩
  · simp [generate_overlay_frames, overlayFrameAt, chunkDuration,
      List.range_succ]
    norm_num
  · simp [generate_overlay_frames, overlayFrameAt, prayerChunk,
      List.range_succ]

/-- Counterexample evidence for claim C9 on the code: the first text draw
of every frame (the brand line) is anchored at `y = 100`, above the
claimed 10%-of-height top safe zone (`192` at the default height 1920);
and the bottom reservation is the fixed 384 px constant, which at height
960 is 40% of the frame, not the claimed scaled 20%. -/
theorem c9_code_ignores_top_safe_zone :
    ((overlayTextDraws 1920 1 4 1).head?.map (fun t => t.y) = some 100)
    ∧ (100 : Int) < 1920 / 10
    ∧ TIKTOK_BOTTOM_SAFE_ZONE = 384
    ∧ safeZoneY 960 = 576
    ∧ (960 : Int) - safeZoneY 960 ≠ 960 / 5 := by decide
